import Mathlib

/-!
Verification of the PDF-to-PNG batch conversion pipeline (`src/pdf2img.py`).

The script is a straight-line orchestration program: `convert_pdf_to_images`
opens one PDF, rasterizes each page and writes one PNG per page with embedded
text metadata; `batch_convert_pdfs` filters a directory listing for `.pdf`
entries and folds per-file boolean outcomes into success/failure counts;
`main` maps CLI flags to a metadata dictionary.

The embedding below mirrors the Python source.  External effects (directory
creation, document opening, per-page rasterize/encode/write, clock) are
modelled by an oracle environment `ConvEnv` that says, for each external
operation, whether it succeeds and what it yields; the embedded functions
then follow the Python control flow exactly, recording the observable events
(written files, log messages, close calls, outcome) in a result structure.
-/

/-! ## Python string and path primitives -/

/-- `str.lower()` (per-character lowercasing, as used on ASCII file names). -/
def pyLower (s : String) : String := ⟨s.data.map Char.toLower⟩

/-- `str.endswith(suf)`: `suf` is a suffix of `s`. -/
def pyEndsWith (s suf : String) : Bool := List.isSuffixOf suf.data s.data

/-- Helper for `os.path.basename`: last `/`-separated component. -/
def lastComponentAux : List Char → List Char → List Char
  | [], acc => acc.reverse
  | c :: cs, acc => if c = '/' then lastComponentAux cs [] else lastComponentAux cs (c :: acc)

/-- `os.path.basename` (POSIX): the part of the path after the last `/`. -/
def pyBasename (p : String) : String := ⟨lastComponentAux p.data []⟩

/-- Index of the last occurrence of `c` in `cs`, if any. -/
def rfindIdx (cs : List Char) (c : Char) : Option Nat :=
  match cs.reverse.findIdx? (· = c) with
  | some j => some (cs.length - 1 - j)
  | none => none

/-- `os.path.splitext(p)[0]` (POSIX `_splitext`): drop the extension starting
at the last dot, unless every character of the final component before that
dot is itself a dot (so `.pdf` and `..pdf` keep their dots). -/
def pySplitextStem (p : String) : String :=
  let cs := p.data
  let sepIdx : Option Nat := rfindIdx cs '/'
  let dotIdx : Option Nat := rfindIdx cs '.'
  match dotIdx with
  | none => p
  | some di =>
    let startIdx : Nat := match sepIdx with | none => 0 | some si => si + 1
    if (match sepIdx with | none => true | some si => si < di) then
      if ((cs.drop startIdx).take (di - startIdx)).any (· ≠ '.') then
        ⟨cs.take di⟩
      else p
    else p

/-- `os.path.join(a, b)` for a non-empty `a` with no trailing slash and a
relative `b`, the only shape this program produces. -/
def pyJoin (a b : String) : String := a ++ "/" ++ b

/-- Python truthiness of an optional string (`None` and `\x22\x22` are falsy). -/
def pyTruthy : Option String → Bool
  | none => false
  | some s => !s.isEmpty

/-! ## Observable events of one `convert_pdf_to_images` call -/

/-- One PNG file written by the converter: its path and the ordered list of
text-metadata chunks embedded in it (in the order `PngInfo.add_text` was
called; PNG permits duplicate keys, each call appends a chunk). -/
structure WrittenImage where
  path : String
  text : List (String × String)
deriving DecidableEq

/-- What a PIL-style reader sees for key `k`: chunks are loaded in file order
into a dict, so the last chunk with key `k` wins. -/
def textLookupLast (kvs : List (String × String)) (k : String) : Option String :=
  (kvs.reverse.find? (fun kv => kv.1 = k)).map (fun kv => kv.2)

/-- The value a Python function call produces: a `return`ed value, or an
exception escaping the call uncaught. -/
inductive PyOutcome where
  | ret : Bool → PyOutcome
  | exn : PyOutcome
deriving DecidableEq

/-- Console messages the script prints. -/
inductive LogMsg where
  | success : String → LogMsg
  | error : String → LogMsg
  | noPdfFound : LogMsg
  | found : Nat → LogMsg
  | summary : Nat → Nat → LogMsg
deriving DecidableEq

/-! ## Oracle environment for one file's conversion -/

/-- External-world oracle for one `convert_pdf_to_images` call.  `dirExists`
is the `os.path.exists(output_folder)` answer; `mkdirOk` whether
`os.makedirs` succeeds if attempted; `openResult` is `some pageCount` when
`fitz.open` succeeds and `none` when it raises; `pageOk i` whether
rasterizing/encoding/writing page index `i` succeeds; `now i` the
`datetime.now().isoformat()` string captured while processing page `i`. -/
structure ConvEnv where
  dirExists : Bool
  mkdirOk : Bool
  openResult : Option Nat
  pageOk : Nat → Bool
  now : Nat → String

/-- Result of one embedded `convert_pdf_to_images` call. -/
structure ConvResult where
  outcome : PyOutcome
  written : List WrittenImage
  mkdirCalled : Bool
  dirExistsAfter : Bool
  openAttempted : Bool
  closes : Nat
  logs : List LogMsg
  metaAfter : List (String × String)

/-! ## The Page Converter (`convert_pdf_to_images`, src/pdf2img.py lines 7-62) -/

/-- Output path of page index `i` (0-based):
`output_folder/{splitext(basename(pdf_path))[0]}_page_{i+1}.png`. -/
def imagePath (pdfPath outputFolder : String) (i : Nat) : String :=
  pyJoin outputFolder (pySplitextStem (pyBasename pdfPath) ++ "_page_" ++ toString (i + 1) ++ ".png")

/-- Metadata chunks of page index `i` in the order the code adds them:
the four fixed fields first (lines 39-42), then every caller-supplied
entry (lines 45-48; `str` of an already-string value is itself). -/
def pageMeta (pdfPath date : String) (i total : Nat)
    (metadata : List (String × String)) : List (String × String) :=
  [("Source_PDF", pyBasename pdfPath),
   ("Conversion_Date", date),
   ("Page_Number", toString (i + 1)),
   ("Total_Pages", toString total)] ++ metadata

/-- The image written for page index `i` of a `total`-page document. -/
def mkImage (env : ConvEnv) (pdfPath outputFolder : String)
    (metadata : List (String × String)) (total i : Nat) : WrittenImage :=
  ⟨imagePath pdfPath outputFolder i, pageMeta pdfPath (env.now i) i total metadata⟩

/-- The page loop (lines 22-51), starting at page index `i` with `rem` pages
left: returns the images written in order, and `true` iff every page was
processed without an exception. -/
def pageLoop (env : ConvEnv) (pdfPath outputFolder : String)
    (metadata : List (String × String)) (total : Nat) :
    Nat → Nat → List WrittenImage × Bool
  | _, 0 => ([], true)
  | i, rem + 1 =>
    if env.pageOk i then
      let rest := pageLoop env pdfPath outputFolder metadata total (i + 1) rem
      (mkImage env pdfPath outputFolder metadata total i :: rest.1, rest.2)
    else ([], false)

/-- Embedding of `convert_pdf_to_images(pdf_path, output_folder, metadata)`.
Mirrors the source: the `os.path.exists`/`os.makedirs` guard (lines 16-17)
runs before the `try`, so a `makedirs` failure escapes uncaught; inside the
`try`, an `fitz.open` failure or a page failure is caught by the
`except Exception` (lines 56-58), logged and turned into `False`; the
`finally` (lines 60-62) closes the handle exactly when it was opened. -/
def convert_pdf_to_images (env : ConvEnv) (pdfPath outputFolder : String)
    (metadata : List (String × String)) : ConvResult :=
  let needMkdir := !env.dirExists
  if needMkdir && !env.mkdirOk then
    { outcome := .exn, written := [], mkdirCalled := true, dirExistsAfter := false,
      openAttempted := false, closes := 0, logs := [], metaAfter := metadata }
  else
    match env.openResult with
    | none =>
      { outcome := .ret false, written := [], mkdirCalled := needMkdir,
        dirExistsAfter := true, openAttempted := true, closes := 0,
        logs := [.error (pyBasename pdfPath)], metaAfter := metadata }
    | some total =>
      let r := pageLoop env pdfPath outputFolder metadata total 0 total
      if r.2 then
        { outcome := .ret true, written := r.1, mkdirCalled := needMkdir,
          dirExistsAfter := true, openAttempted := true, closes := 1,
          logs := [.success (pyBasename pdfPath)], metaAfter := metadata }
      else
        { outcome := .ret false, written := r.1, mkdirCalled := needMkdir,
          dirExistsAfter := true, openAttempted := true, closes := 1,
          logs := [.error (pyBasename pdfPath)], metaAfter := metadata }

/-! ## The Batch Orchestrator (`batch_convert_pdfs`, src/pdf2img.py lines 64-104) -/

/-- The selection test of line 78: `f.lower().endswith('.pdf')`. -/
def isPdfName (f : String) : Bool := pyEndsWith (pyLower f) ".pdf"

/-- Accumulated state of the per-file loop (lines 90-99). -/
structure LoopOut where
  raised : Bool
  processed : List String
  successful : Nat
  failed : Nat
  written : List WrittenImage
  logs : List LogMsg

/-- The conversion call made for directory entry `f` (lines 91-96):
`convert_pdf_to_images(input_folder/f, output_folder/splitext(f)[0], metadata)`. -/
def fileConv (envOf : String → ConvEnv) (inputFolder outputFolder : String)
    (metadata : List (String × String)) (f : String) : ConvResult :=
  convert_pdf_to_images (envOf f) (pyJoin inputFolder f)
    (pyJoin outputFolder (pySplitextStem f)) metadata

/-- The per-file loop: each file's converter outcome is folded into the
counters; an exception escaping the converter aborts the loop (nothing in
the orchestrator catches it). -/
def batchLoop (envOf : String → ConvEnv) (inputFolder outputFolder : String)
    (metadata : List (String × String)) : List String → LoopOut
  | [] => { raised := false, processed := [], successful := 0, failed := 0,
            written := [], logs := [] }
  | f :: fs =>
    let c := fileConv envOf inputFolder outputFolder metadata f
    match c.outcome with
    | .exn => { raised := true, processed := [], successful := 0, failed := 0,
                written := c.written, logs := c.logs }
    | .ret b =>
      let r := batchLoop envOf inputFolder outputFolder metadata fs
      { raised := r.raised, processed := f :: r.processed,
        successful := (if b then 1 else 0) + r.successful,
        failed := (if b then 0 else 1) + r.failed,
        written := c.written ++ r.written, logs := c.logs ++ r.logs }

/-- Result of one embedded `batch_convert_pdfs` call. -/
structure BatchResult where
  raised : Bool
  processed : List String
  successful : Nat
  failed : Nat
  written : List WrittenImage
  logs : List LogMsg
  metaAfter : List (String × String)

/-- Embedding of `batch_convert_pdfs(input_folder, output_folder, metadata)`
over the list of directory entries `os.listdir` yields.  Line 78 selects
entries passing `isPdfName`; if none, line 81 prints the message and line 82
returns with no processing and no summary; otherwise lines 84-104 print the
count, run the loop and print the summary. -/
def batch_convert_pdfs (envOf : String → ConvEnv) (inputFolder outputFolder : String)
    (entries : List String) (metadata : List (String × String)) : BatchResult :=
  let pdf_files := entries.filter isPdfName
  if pdf_files.isEmpty then
    { raised := false, processed := [], successful := 0, failed := 0,
      written := [], logs := [.noPdfFound], metaAfter := metadata }
  else
    let r := batchLoop envOf inputFolder outputFolder metadata pdf_files
    { raised := r.raised, processed := r.processed, successful := r.successful,
      failed := r.failed, written := r.written,
      logs := .found pdf_files.length :: r.logs ++
        (if r.raised then [] else [.summary r.successful r.failed]),
      metaAfter := metadata }

/-! ## The CLI (`main`, src/pdf2img.py lines 106-125) -/

/-- Parsed optional flags; `none` means the flag was not supplied on the
command line (argparse default). -/
structure Args where
  author : Option String
  project : Option String
  department : Option String

/-- The dictionary entries contributed by one flag: the key is added only
when the flag's value is truthy (`if args.author:` etc.). -/
def flagChunk (key : String) (flag : Option String) : List (String × String) :=
  if pyTruthy flag then [(key, flag.getD "")] else []

/-- The metadata dictionary built in lines 117-123, in the order
Author, Project, Department. -/
def buildMetadata (a : Args) : List (String × String) :=
  flagChunk "Author" a.author ++ flagChunk "Project" a.project ++
    flagChunk "Department" a.department

/-- `main`: parse args, build the metadata dictionary, run the batch. -/
def mainRun (envOf : String → ConvEnv) (inputFolder outputFolder : String)
    (entries : List String) (a : Args) : BatchResult :=
  batch_convert_pdfs envOf inputFolder outputFolder entries (buildMetadata a)

/-- Boolean test: the conversion of directory entry `f` returned `True`. -/
def fileRetTrue (envOf : String → ConvEnv) (inputFolder outputFolder : String)
    (metadata : List (String × String)) (f : String) : Bool :=
  match (fileConv envOf inputFolder outputFolder metadata f).outcome with
  | .ret true => true
  | _ => false

/-- Modelled from the spec: a name "ends with `.pdf` (case-insensitive
comparison of the extension only)" — its last four characters, lowercased,
are `.pdf`. -/
def specIsPdfName (f : String) : Bool :=
  decide ((f.data.drop (f.data.length - 4)).map Char.toLower = ".pdf".data)

/-! ## Concrete environments used by witnesses and counterexamples -/

/-- All external operations succeed; the document has `k` pages. -/
def envAllOk (k : Nat) : ConvEnv :=
  ⟨true, true, some k, fun _ => true, fun _ => "2024-01-01T00:00:00"⟩

/-- The output directory is absent and `os.makedirs` raises. -/
def envMkdirFail : ConvEnv :=
  ⟨false, false, some 1, fun _ => true, fun _ => "2024-01-01T00:00:00"⟩

/-- `fitz.open` raises (corrupt or unreadable PDF). -/
def envOpenFail : ConvEnv :=
  ⟨true, true, none, fun _ => true, fun _ => "2024-01-01T00:00:00"⟩

/-- A batch in which `a.pdf` converts and every other file fails to open. -/
def envOfMixed : String → ConvEnv :=
  fun f => if f = "a.pdf" then envAllOk 1 else envOpenFail

example : pyBasename "in/a.pdf" = "a.pdf" := by decide
example : pySplitextStem "a.pdf" = "a" := by decide
example : pySplitextStem ".pdf" = ".pdf" := by decide
example : pySplitextStem "a.b.pdf" = "a.b" := by decide
example : imagePath "in/a.pdf" "out/a" 0 = "out/a/a_page_1.png" := by decide
example : pyEndsWith (pyLower "x.PdF") ".pdf" = true := by decide

/-! ## Helper lemmas about the page loop and the converter -/

theorem pageLoop_eq_of_all_ok (env : ConvEnv) (p out : String)
    (md : List (String × String)) (total : Nat) :
    ∀ (rem i : Nat), (∀ j, j < rem → env.pageOk (i + j) = true) →
    pageLoop env p out md total i rem =
      ((List.range rem).map (fun j => mkImage env p out md total (i + j)), true)
  | 0, _, _ => by simp [pageLoop]
  | rem + 1, i, h => by
    have h0 : env.pageOk i = true := by simpa using h 0 (Nat.succ_pos rem)
    have ih := pageLoop_eq_of_all_ok env p out md total rem (i + 1)
      (fun j hj => by
        have := h (j + 1) (Nat.succ_lt_succ hj)
        simpa [Nat.add_assoc, Nat.add_comm 1 j] using this)
    have harith : ∀ j : Nat, i + 1 + j = i + (j + 1) := fun j => by omega
    simp [pageLoop, h0, ih, List.range_succ_eq_map, List.map_map, Function.comp, harith]

theorem pageLoop_snd_true_iff (env : ConvEnv) (p out : String)
    (md : List (String × String)) (total : Nat) :
    ∀ (rem i : Nat), (pageLoop env p out md total i rem).2 = true ↔
      ∀ j, j < rem → env.pageOk (i + j) = true
  | 0, _ => by simp [pageLoop]
  | rem + 1, i => by
    by_cases h0 : env.pageOk i = true
    · have ih := pageLoop_snd_true_iff env p out md total rem (i + 1)
      simp only [pageLoop, h0, if_true, ih]
      constructor
      · intro hall j hj
        match j, hj with
        | 0, _ => simpa using h0
        | j + 1, hj =>
          have := hall j (Nat.lt_of_succ_lt_succ hj)
          simpa [Nat.add_assoc, Nat.add_comm 1 j] using this
      · intro hall j hj
        have := hall (j + 1) (Nat.succ_lt_succ hj)
        simpa [Nat.add_assoc, Nat.add_comm 1 j] using this
    · simp only [pageLoop, h0, if_false]
      constructor
      · intro hfalse
        exact absurd hfalse (by simp)
      · intro hall
        exact absurd (by simpa using hall 0 (Nat.succ_pos rem)) h0

theorem pageLoop_mem (env : ConvEnv) (p out : String)
    (md : List (String × String)) (total : Nat) :
    ∀ (rem i : Nat) (img : WrittenImage),
    img ∈ (pageLoop env p out md total i rem).1 →
    ∃ j, j < rem ∧ img = mkImage env p out md total (i + j)
  | 0, _, _ => by simp [pageLoop]
  | rem + 1, i, img => by
    by_cases h0 : env.pageOk i = true
    · simp only [pageLoop, h0, if_true, List.mem_cons]
      rintro (hhead | htail)
      · exact ⟨0, Nat.succ_pos rem, by simpa using hhead⟩
      · obtain ⟨j, hj, himg⟩ := pageLoop_mem env p out md total rem (i + 1) img htail
        exact ⟨j + 1, Nat.succ_lt_succ hj, by simpa [Nat.add_assoc, Nat.add_comm 1 j] using himg⟩
    · simp [pageLoop, h0]

/-- When the `makedirs` step does not raise, every other failure is caught
and the converter returns a boolean. -/
theorem convert_ret_of_mkdirOk (env : ConvEnv) (p out : String)
    (md : List (String × String)) (h : env.dirExists = true ∨ env.mkdirOk = true) :
    ∃ b, (convert_pdf_to_images env p out md).outcome = PyOutcome.ret b := by
  have hguard : (!env.dirExists && !env.mkdirOk) = false := by
    rcases h with h | h <;> simp [h]
  simp only [convert_pdf_to_images, hguard, Bool.false_eq_true, if_false]
  match env.openResult with
  | none => exact ⟨false, rfl⟩
  | some total =>
    by_cases hsnd : (pageLoop env p out md total 0 total).2 = true
    · exact ⟨true, by simp [hsnd]⟩
    · exact ⟨false, by simp [hsnd]⟩

/-- Any image the converter writes is the image of some page `i < k` of a
successfully opened `k`-page document. -/
theorem convert_written_mem (env : ConvEnv) (p out : String)
    (md : List (String × String)) (img : WrittenImage)
    (h : img ∈ (convert_pdf_to_images env p out md).written) :
    ∃ k i, env.openResult = some k ∧ i < k ∧ img = mkImage env p out md k i := by
  by_cases hguard : (!env.dirExists && !env.mkdirOk) = true
  · simp only [convert_pdf_to_images, hguard, if_true] at h
    simp at h
  · rw [Bool.not_eq_true] at hguard
    simp only [convert_pdf_to_images, hguard, Bool.false_eq_true, if_false] at h
    match hopen : env.openResult with
    | none => rw [hopen] at h; simp at h
    | some total =>
      rw [hopen] at h
      have hmem : img ∈ (pageLoop env p out md total 0 total).1 := by
        by_cases hsnd : (pageLoop env p out md total 0 total).2 = true
        · simpa [hsnd] using h
        · simpa [hsnd] using h
      obtain ⟨j, hj, himg⟩ := pageLoop_mem env p out md total total 0 img hmem
      exact ⟨total, j, rfl, hj, by simpa using himg⟩

/-- Full characterization of a conversion in which `makedirs` and `open`
succeed and every page is processed without an exception. -/
theorem convert_success_of_all_ok (env : ConvEnv) (p out : String)
    (md : List (String × String)) (k : Nat)
    (hdir : env.dirExists = true ∨ env.mkdirOk = true)
    (hopen : env.openResult = some k)
    (hpages : ∀ i, i < k → env.pageOk i = true) :
    convert_pdf_to_images env p out md =
      { outcome := .ret true,
        written := (List.range k).map (fun i => mkImage env p out md k i),
        mkdirCalled := !env.dirExists, dirExistsAfter := true, openAttempted := true,
        closes := 1, logs := [.success (pyBasename p)], metaAfter := md } := by
  have hguard : (!env.dirExists && !env.mkdirOk) = false := by
    rcases hdir with h | h <;> simp [h]
  have hpl := pageLoop_eq_of_all_ok env p out md k k 0 (fun j hj => by simpa using hpages j hj)
  simp only [convert_pdf_to_images, hguard, Bool.false_eq_true, if_false, hopen, hpl]
  simp

/-- When no file's conversion lets an exception escape, the loop processes
every file in order and the two counters count the `True` and `False`
converter results. -/
theorem batchLoop_no_exn (envOf : String → ConvEnv) (inF outF : String)
    (md : List (String × String)) :
    ∀ fs : List String,
    (∀ f ∈ fs, (fileConv envOf inF outF md f).outcome ≠ PyOutcome.exn) →
    (batchLoop envOf inF outF md fs).raised = false ∧
    (batchLoop envOf inF outF md fs).processed = fs ∧
    (batchLoop envOf inF outF md fs).successful = fs.countP (fileRetTrue envOf inF outF md) ∧
    (batchLoop envOf inF outF md fs).failed =
      fs.countP (fun f => !fileRetTrue envOf inF outF md f)
  | [], _ => by simp [batchLoop]
  | f :: fs, h => by
    have hf := h f (List.mem_cons_self f fs)
    have ih := batchLoop_no_exn envOf inF outF md fs
      (fun g hg => h g (List.mem_cons_of_mem f hg))
    match hc : (fileConv envOf inF outF md f).outcome with
    | .exn => exact absurd hc hf
    | .ret b =>
      have hb : fileRetTrue envOf inF outF md f = b := by
        unfold fileRetTrue
        rw [hc]
        cases b <;> rfl
      simp only [batchLoop, hc, List.countP_cons, hb]
      refine ⟨ih.1, by rw [ih.2.1], ?_, ?_⟩
      · rw [ih.2.2.1]; cases b <;> simp <;> omega
      · rw [ih.2.2.2]; cases b <;> simp <;> omega

/-- Any image written during a batch was written by the conversion of one of
the selected files. -/
theorem batchLoop_written_mem (envOf : String → ConvEnv) (inF outF : String)
    (md : List (String × String)) :
    ∀ (fs : List String) (img : WrittenImage),
    img ∈ (batchLoop envOf inF outF md fs).written →
    ∃ f, f ∈ fs ∧ img ∈ (fileConv envOf inF outF md f).written
  | [], img => by simp [batchLoop]
  | f :: fs, img => by
    match hc : (fileConv envOf inF outF md f).outcome with
    | .exn =>
      simp only [batchLoop, hc]
      intro h
      exact ⟨f, List.mem_cons_self f fs, h⟩
    | .ret b =>
      simp only [batchLoop, hc, List.mem_append]
      rintro (h | h)
      · exact ⟨f, List.mem_cons_self f fs, h⟩
      · obtain ⟨g, hg, hmem⟩ := batchLoop_written_mem envOf inF outF md fs img h
        exact ⟨g, List.mem_cons_of_mem f hg, hmem⟩

/-! ## The selection test versus the spec's description -/

theorem isPdfName_eq_spec (f : String) : isPdfName f = specIsPdfName f := by
  unfold isPdfName specIsPdfName pyEndsWith pyLower
  rcases hsuf : List.isSuffixOf ".pdf".data (f.data.map Char.toLower) with _ | _
  · rw [eq_comm, decide_eq_false_iff_not]
    intro heq
    rw [Bool.eq_false_iff] at hsuf
    apply hsuf
    rw [List.isSuffixOf_iff_suffix, List.suffix_iff_eq_drop]
    rw [List.length_map, ← List.map_drop]
    have hlen : (".pdf".data).length = 4 := by decide
    rw [hlen]
    exact heq.symm
  · rw [List.isSuffixOf_iff_suffix, List.suffix_iff_eq_drop] at hsuf
    rw [eq_comm, decide_eq_true_iff]
    rw [List.length_map, ← List.map_drop] at hsuf
    have hlen : (".pdf".data).length = 4 := by decide
    rw [hlen] at hsuf
    exact hsuf.symm

/-! ## Lookup helpers for text-metadata chunk lists -/

theorem textLookupLast_append (xs ys : List (String × String)) (k : String) :
    textLookupLast (xs ++ ys) k =
      (textLookupLast ys k).or (textLookupLast xs k) := by
  unfold textLookupLast
  rw [List.reverse_append, List.find?_append]
  cases List.find? (fun kv => kv.1 = k) ys.reverse <;> simp

theorem lookup_append (l₁ l₂ : List (String × String)) (k : String) :
    (l₁ ++ l₂).lookup k = ((l₁.lookup k).or (l₂.lookup k)) := by
  induction l₁ with
  | nil => simp [List.lookup]
  | cons kv l ih =>
    by_cases h : k == kv.1
    · simp [List.lookup, h]
    · simp only [List.cons_append, List.lookup, h]
      exact ih

/-! ## The claims -/

/-- Claim C1: for a PDF that opens with `k ≥ 1` pages (and whose page
operations raise no exception), the converter returns `True` and writes
exactly one PNG per page, at
`outputFolder/{basename-without-extension}_page_{i+1}.png` for `i+1 = 1..k`,
in ascending page order, each carrying `Page_Number = str(i+1)` and
`Total_Pages = str(k)` in its embedded text metadata. -/
theorem C1_one_png_per_page (env : ConvEnv) (p out : String)
    (md : List (String × String)) (k : Nat)
    (hdir : env.dirExists = true ∨ env.mkdirOk = true)
    (hopen : env.openResult = some k) (hk : 1 ≤ k)
    (hpages : ∀ i, i < k → env.pageOk i = true) :
    (convert_pdf_to_images env p out md).outcome = PyOutcome.ret true ∧
    (convert_pdf_to_images env p out md).written.length = k ∧
    ∀ i, i < k →
      (convert_pdf_to_images env p out md).written[i]? =
        some ⟨pyJoin out (pySplitextStem (pyBasename p) ++ "_page_" ++ toString (i + 1) ++ ".png"),
              pageMeta p (env.now i) i k md⟩ ∧
      ("Page_Number", toString (i + 1)) ∈ pageMeta p (env.now i) i k md ∧
      ("Total_Pages", toString k) ∈ pageMeta p (env.now i) i k md := by
  have hc := convert_success_of_all_ok env p out md k hdir hopen hpages
  rw [hc]
  refine ⟨rfl, by simp, fun i hi => ⟨?_, ?_, ?_⟩⟩
  · rw [List.getElem?_map, List.getElem?_range hi]
    rfl
  · simp [pageMeta]
  · simp [pageMeta]

/-- Witness for C1 at a concrete two-page document. -/
theorem C1_one_png_per_page_witness :
    (envAllOk 2).openResult = some 2 ∧ (1 ≤ 2) ∧
    (convert_pdf_to_images (envAllOk 2) "in/a.pdf" "out/a" []).written.length = 2 :=
  ⟨rfl, by omega,
   (C1_one_png_per_page (envAllOk 2) "in/a.pdf" "out/a" [] 2 (Or.inl rfl) rfl
     (by omega) (fun i _ => rfl)).2.1⟩

/-- Claim C3 counterexample: when the output directory is absent and
`os.makedirs` raises (lines 16-17 run before the `try`), the exception
escapes `convert_pdf_to_images` uncaught — the converter does not return a
boolean, refuting "no exception ever propagates from the Page Converter". -/
theorem C3_counterexample :
    (convert_pdf_to_images envMkdirFail "a.pdf" "out" []).outcome = PyOutcome.exn := rfl

/-- Claim C3 (amended): every exception raised while opening the document,
rasterizing a page, or encoding/writing a PNG is caught inside the Page
Converter, logged with the file's basename, and converted to a `False`
return; but this holds only when the directory-creation step preceding the
`try` block does not itself raise — a `makedirs` failure propagates. -/
theorem C3_exceptions_contained (env : ConvEnv) (p out : String)
    (md : List (String × String))
    (h : env.dirExists = true ∨ env.mkdirOk = true) :
    (∃ b, (convert_pdf_to_images env p out md).outcome = PyOutcome.ret b) ∧
    ((convert_pdf_to_images env p out md).outcome = PyOutcome.ret false ↔
      env.openResult = none ∨
        ∃ k, env.openResult = some k ∧ ∃ i, i < k ∧ env.pageOk i = false) ∧
    ((convert_pdf_to_images env p out md).outcome = PyOutcome.ret false →
      (convert_pdf_to_images env p out md).logs = [LogMsg.error (pyBasename p)]) := by
  have hguard : (!env.dirExists && !env.mkdirOk) = false := by
    rcases h with h | h <;> simp [h]
  simp only [convert_pdf_to_images, hguard, Bool.false_eq_true, if_false]
  match hopen : env.openResult with
  | none =>
    refine ⟨⟨false, rfl⟩, by simp, fun _ => rfl⟩
  | some k =>
    by_cases hsnd : (pageLoop env p out md k 0 k).2 = true
    · have hall := (pageLoop_snd_true_iff env p out md k k 0).mp hsnd
      simp only [hsnd, if_true]
      refine ⟨⟨true, rfl⟩, ?_, fun hcontra => by simp at hcontra⟩
      constructor
      · intro hcontra; simp at hcontra
      · rintro (hcontra | ⟨k2, hk2, i, hi, hbad⟩)
        · simp at hcontra
        · rw [Option.some_inj] at hk2
          subst hk2
          have := hall i hi
          rw [Nat.zero_add] at this
          rw [this] at hbad
          simp at hbad
    · simp only [hsnd, if_false]
      refine ⟨⟨false, rfl⟩, ?_, fun _ => rfl⟩
      constructor
      · intro _
        right
        rw [pageLoop_snd_true_iff] at hsnd
        push_neg at hsnd
        obtain ⟨j, hj, hbad⟩ := hsnd
        exact ⟨k, rfl, j, hj, by simpa using hbad⟩
      · intro _; rfl

/-- Witness for the amended C3: a PDF that fails to open yields `False`. -/
theorem C3_exceptions_contained_witness :
    envOpenFail.dirExists = true ∧
    (convert_pdf_to_images envOpenFail "a.pdf" "out" []).outcome = PyOutcome.ret false :=
  ⟨rfl, ((C3_exceptions_contained envOpenFail "a.pdf" "out" [] (Or.inl rfl)).2.1).mpr
    (Or.inl rfl)⟩

/-- Claim C4: whenever the `makedirs` step does not raise, the `finally`
block closes the document handle exactly once if `fitz.open` succeeded, on
every exit path, and performs no close when opening failed. -/
theorem C4_handle_closed_once (env : ConvEnv) (p out : String)
    (md : List (String × String))
    (h : env.dirExists = true ∨ env.mkdirOk = true) :
    (env.openResult.isSome = true → (convert_pdf_to_images env p out md).closes = 1) ∧
    (env.openResult = none → (convert_pdf_to_images env p out md).closes = 0) := by
  have hguard : (!env.dirExists && !env.mkdirOk) = false := by
    rcases h with h | h <;> simp [h]
  constructor
  · intro hsome
    match hopen : env.openResult with
    | none => rw [hopen] at hsome; simp at hsome
    | some k =>
      simp only [convert_pdf_to_images, hguard, Bool.false_eq_true, if_false, hopen]
      by_cases hsnd : (pageLoop env p out md k 0 k).2 = true <;> simp [hsnd]
  · intro hnone
    simp only [convert_pdf_to_images, hguard, Bool.false_eq_true, if_false, hnone]

/-- Witness for C4 at a concrete one-page document and at a failing open. -/
theorem C4_handle_closed_once_witness :
    (convert_pdf_to_images (envAllOk 1) "a.pdf" "out" []).closes = 1 ∧
    (convert_pdf_to_images envOpenFail "a.pdf" "out" []).closes = 0 :=
  ⟨(C4_handle_closed_once (envAllOk 1) "a.pdf" "out" [] (Or.inl rfl)).1 rfl,
   (C4_handle_closed_once envOpenFail "a.pdf" "out" [] (Or.inl rfl)).2 rfl⟩

/-- Claim C7: a document that opens with zero pages produces no image files,
logs the success message, and the converter returns `True`. -/
theorem C7_zero_page_success (env : ConvEnv) (p out : String)
    (md : List (String × String))
    (hdir : env.dirExists = true ∨ env.mkdirOk = true)
    (hopen : env.openResult = some 0) :
    (convert_pdf_to_images env p out md).written = [] ∧
    (convert_pdf_to_images env p out md).outcome = PyOutcome.ret true ∧
    (convert_pdf_to_images env p out md).logs = [LogMsg.success (pyBasename p)] := by
  have hc := convert_success_of_all_ok env p out md 0 hdir hopen
    (fun i hi => absurd hi (Nat.not_lt_zero i))
  rw [hc]
  exact ⟨by simp, rfl, rfl⟩

/-- Witness for C7 at a concrete zero-page document. -/
theorem C7_zero_page_success_witness :
    (envAllOk 0).openResult = some 0 ∧
    (convert_pdf_to_images (envAllOk 0) "a.pdf" "out" []).outcome = PyOutcome.ret true :=
  ⟨rfl, (C7_zero_page_success (envAllOk 0) "a.pdf" "out" [] (Or.inl rfl) rfl).2.1⟩

/-- Claim C9: the output directory is created (idempotently, only if absent)
before the PDF is opened; whenever the `makedirs` step does not raise, the
directory exists after the call even when opening or conversion fails, and
when `makedirs` raises the open is never attempted. -/
theorem C9_outdir_before_open (env : ConvEnv) (p out : String)
    (md : List (String × String)) :
    ((env.dirExists = true ∨ env.mkdirOk = true) →
      (convert_pdf_to_images env p out md).dirExistsAfter = true ∧
      (convert_pdf_to_images env p out md).openAttempted = true) ∧
    (env.dirExists = false → env.mkdirOk = false →
      (convert_pdf_to_images env p out md).openAttempted = false) ∧
    (convert_pdf_to_images env p out md).mkdirCalled = !env.dirExists := by
  by_cases hguard : (!env.dirExists && !env.mkdirOk) = true
  · have hde : env.dirExists = false := by
      rcases Bool.and_eq_true_iff.mp hguard with ⟨h1, _⟩
      simpa using h1
    have hmk : env.mkdirOk = false := by
      rcases Bool.and_eq_true_iff.mp hguard with ⟨_, h2⟩
      simpa using h2
    simp only [convert_pdf_to_images, hguard, if_true]
    refine ⟨?_, fun _ _ => by simp, by simp [hde]⟩
    rintro (h | h)
    · rw [h] at hde; simp at hde
    · rw [h] at hmk; simp at hmk
  · rw [Bool.not_eq_true] at hguard
    simp only [convert_pdf_to_images, hguard, Bool.false_eq_true, if_false]
    match hopen : env.openResult with
    | none => exact ⟨fun _ => ⟨by simp, by simp⟩, fun h1 h2 => by simp [h1, h2] at hguard, by simp⟩
    | some k =>
      by_cases hsnd : (pageLoop env p out md k 0 k).2 = true <;>
        simp only [hsnd, if_true, if_false] <;>
        exact ⟨fun _ => ⟨by simp, by simp⟩, fun h1 h2 => by simp [h1, h2] at hguard, by simp⟩

/-- Witness for C9: the directory outlives a failed open. -/
theorem C9_outdir_before_open_witness :
    (convert_pdf_to_images envOpenFail "a.pdf" "out" []).dirExistsAfter = true :=
  ((C9_outdir_before_open envOpenFail "a.pdf" "out" []).1 (Or.inl rfl)).1

/-- Claim C10: neither the converter nor the orchestrator mutates the
caller-supplied metadata mapping — it is returned identical to the input on
every path. -/
theorem C10_metadata_unchanged (env : ConvEnv) (p out : String)
    (md : List (String × String)) (envOf : String → ConvEnv)
    (inF outF : String) (entries : List String) :
    (convert_pdf_to_images env p out md).metaAfter = md ∧
    (batch_convert_pdfs envOf inF outF entries md).metaAfter = md := by
  constructor
  · by_cases hguard : (!env.dirExists && !env.mkdirOk) = true
    · simp [convert_pdf_to_images, hguard]
    · rw [Bool.not_eq_true] at hguard
      simp only [convert_pdf_to_images, hguard, Bool.false_eq_true, if_false]
      match env.openResult with
      | none => rfl
      | some k =>
        by_cases hsnd : (pageLoop env p out md k 0 k).2 = true <;> simp [hsnd]
  · by_cases hemp : (entries.filter isPdfName).isEmpty = true <;>
      simp [batch_convert_pdfs, hemp]

theorem countP_add_countP_not {α : Type} (p : α → Bool) (l : List α) :
    l.countP p + l.countP (fun a => !p a) = l.length := by
  induction l with
  | nil => simp
  | cons a l ih =>
    by_cases h : p a = true <;> simp [List.countP_cons, h] <;> omega

theorem flagChunk_lookup_self (key : String) (flag : Option String) :
    (flagChunk key flag).lookup key =
      (flag.bind fun s => if s = "" then none else some s) := by
  unfold flagChunk pyTruthy
  cases flag with
  | none => rfl
  | some s =>
    by_cases hs : s.isEmpty = true
    · have hstr : s = "" := (String.isEmpty_iff s).mp hs
      simp [hs, hstr, List.lookup]
    · have hne : ¬ s = "" := by
        intro hstr
        rw [hstr] at hs
        exact hs rfl
      simp [hs, hne, List.lookup]

theorem flagChunk_lookup_other (key other : String) (flag : Option String)
    (h : (other == key) = false) :
    (flagChunk key flag).lookup other = none := by
  unfold flagChunk
  split
  · simp [List.lookup, h]
  · rfl

/-- Any image written during a batch comes from the conversion of one of the
selected files. -/
theorem batch_written_mem (envOf : String → ConvEnv) (inF outF : String)
    (entries : List String) (md : List (String × String)) (img : WrittenImage)
    (h : img ∈ (batch_convert_pdfs envOf inF outF entries md).written) :
    ∃ f, f ∈ entries.filter isPdfName ∧ img ∈ (fileConv envOf inF outF md f).written := by
  by_cases hemp : (entries.filter isPdfName).isEmpty = true
  · simp [batch_convert_pdfs, hemp] at h
  · rw [Bool.not_eq_true] at hemp
    simp only [batch_convert_pdfs, hemp, Bool.false_eq_true, if_false] at h
    exact batchLoop_written_mem envOf inF outF md _ img h

/-- Claim C2 counterexample: the four fixed fields are written FIRST (lines
39-42) and the caller's entries afterwards (lines 45-48), so a caller entry
under the key `Page_Number` lands after the fixed chunk, and a
last-occurrence reader sees the caller's value `999` instead of the
computed `1` — user fields do silently overwrite fixed fields. -/
theorem C2_counterexample :
    (convert_pdf_to_images (envAllOk 1) "a.pdf" "out" [("Page_Number", "999")]).written.map
      (fun w => textLookupLast w.text "Page_Number") = [some "999"] := by decide

/-- Claim C2 (amended): every written image's chunk list is the four fixed
fields, in order, followed by the caller's entries.  All four fixed chunks
are therefore always present with their computed values, but they are
written first, not last, and are not protected: whenever the caller's
mapping binds a key (under last-occurrence reading), the reader of the
written PNG sees the caller's value for that key, even for a fixed key. -/
theorem C2_fixed_fields_written_first (env : ConvEnv) (p out : String)
    (md : List (String × String)) (img : WrittenImage)
    (h : img ∈ (convert_pdf_to_images env p out md).written) :
    ∃ k i, env.openResult = some k ∧ i < k ∧
      img.text =
        [("Source_PDF", pyBasename p), ("Conversion_Date", env.now i),
         ("Page_Number", toString (i + 1)), ("Total_Pages", toString k)] ++ md ∧
      ("Source_PDF", pyBasename p) ∈ img.text ∧
      ("Page_Number", toString (i + 1)) ∈ img.text ∧
      ("Total_Pages", toString k) ∈ img.text ∧
      ∀ key v, textLookupLast md key = some v → textLookupLast img.text key = some v := by
  obtain ⟨k, i, hopen, hi, himg⟩ := convert_written_mem env p out md img h
  have htext : img.text =
      [("Source_PDF", pyBasename p), ("Conversion_Date", env.now i),
       ("Page_Number", toString (i + 1)), ("Total_Pages", toString k)] ++ md := by
    rw [himg]; rfl
  refine ⟨k, i, hopen, hi, htext, ?_, ?_, ?_, ?_⟩
  · rw [htext]; simp
  · rw [htext]; simp
  · rw [htext]; simp
  · intro key v hv
    rw [htext, textLookupLast_append, hv]
    rfl

/-- Witness for the amended C2 at a concrete one-page conversion with one
user metadata entry. -/
theorem C2_fixed_fields_written_first_witness :
    ∃ k i, (envAllOk 1).openResult = some k ∧ i < k ∧
      (mkImage (envAllOk 1) "a.pdf" "out" [("Author", "A")] 1 0).text =
        [("Source_PDF", pyBasename "a.pdf"), ("Conversion_Date", (envAllOk 1).now i),
         ("Page_Number", toString (i + 1)), ("Total_Pages", toString k)] ++ [("Author", "A")] ∧
      ("Source_PDF", pyBasename "a.pdf") ∈
        (mkImage (envAllOk 1) "a.pdf" "out" [("Author", "A")] 1 0).text ∧
      ("Page_Number", toString (i + 1)) ∈
        (mkImage (envAllOk 1) "a.pdf" "out" [("Author", "A")] 1 0).text ∧
      ("Total_Pages", toString k) ∈
        (mkImage (envAllOk 1) "a.pdf" "out" [("Author", "A")] 1 0).text ∧
      ∀ key v, textLookupLast [("Author", "A")] key = some v →
        textLookupLast (mkImage (envAllOk 1) "a.pdf" "out" [("Author", "A")] 1 0).text key =
          some v :=
  C2_fixed_fields_written_first (envAllOk 1) "a.pdf" "out" [("Author", "A")]
    (mkImage (envAllOk 1) "a.pdf" "out" [("Author", "A")] 1 0) (by decide)

/-- Claim C5: when no selected file's conversion lets an exception escape, a
`False` converter result never aborts the batch — every selected file is
processed, in listing order — and the final counters satisfy
successful = number of `True` results, failed = number of `False` results,
successful + failed = number of selected files, and the summary with those
counts is emitted. -/
theorem C5_failure_isolation (envOf : String → ConvEnv) (inF outF : String)
    (entries : List String) (md : List (String × String))
    (hne : entries.filter isPdfName ≠ [])
    (hok : ∀ f ∈ entries.filter isPdfName,
      (envOf f).dirExists = true ∨ (envOf f).mkdirOk = true) :
    (batch_convert_pdfs envOf inF outF entries md).raised = false ∧
    (batch_convert_pdfs envOf inF outF entries md).processed = entries.filter isPdfName ∧
    (batch_convert_pdfs envOf inF outF entries md).successful =
      (entries.filter isPdfName).countP (fileRetTrue envOf inF outF md) ∧
    (batch_convert_pdfs envOf inF outF entries md).failed =
      (entries.filter isPdfName).countP (fun f => !fileRetTrue envOf inF outF md f) ∧
    (batch_convert_pdfs envOf inF outF entries md).successful +
      (batch_convert_pdfs envOf inF outF entries md).failed =
      (entries.filter isPdfName).length ∧
    LogMsg.summary (batch_convert_pdfs envOf inF outF entries md).successful
        (batch_convert_pdfs envOf inF outF entries md).failed ∈
      (batch_convert_pdfs envOf inF outF entries md).logs := by
  have hnoexn : ∀ f ∈ entries.filter isPdfName,
      (fileConv envOf inF outF md f).outcome ≠ PyOutcome.exn := by
    intro f hf hexn
    obtain ⟨b, hb⟩ := convert_ret_of_mkdirOk (envOf f) (pyJoin inF f)
      (pyJoin outF (pySplitextStem f)) md (hok f hf)
    unfold fileConv at hexn
    rw [hb] at hexn
    cases hexn
  have hl := batchLoop_no_exn envOf inF outF md (entries.filter isPdfName) hnoexn
  have hemp : (entries.filter isPdfName).isEmpty = false := by
    rw [Bool.eq_false_iff]
    intro hcontra
    exact hne (List.isEmpty_iff.mp hcontra)
  simp only [batch_convert_pdfs, hemp, Bool.false_eq_true, if_false]
  refine ⟨hl.1, hl.2.1, hl.2.2.1, hl.2.2.2, ?_, ?_⟩
  · rw [hl.2.2.1, hl.2.2.2]
    exact countP_add_countP_not (fileRetTrue envOf inF outF md) (entries.filter isPdfName)
  · simp [hl.1]

/-- Witness for C5 with one convertible and one corrupt PDF. -/
theorem C5_failure_isolation_witness :
    (["a.pdf", "b.pdf"].filter isPdfName ≠ []) ∧
    (batch_convert_pdfs envOfMixed "in" "out" ["a.pdf", "b.pdf"] []).processed =
      ["a.pdf", "b.pdf"].filter isPdfName ∧
    (batch_convert_pdfs envOfMixed "in" "out" ["a.pdf", "b.pdf"] []).successful +
      (batch_convert_pdfs envOfMixed "in" "out" ["a.pdf", "b.pdf"] []).failed =
      (["a.pdf", "b.pdf"].filter isPdfName).length := by
  have h := C5_failure_isolation envOfMixed "in" "out" ["a.pdf", "b.pdf"] []
    (by decide)
    (by
      intro f hf
      left
      by_cases hfa : f = "a.pdf" <;> simp [envOfMixed, hfa, envAllOk, envOpenFail])
  exact ⟨by decide, h.2.1, h.2.2.2.2.1⟩

/-- Claim C6: the orchestrator selects exactly the directory entries whose
name ends with `.pdf` under case-insensitive comparison of the extension
(its last four characters); when the selection is empty it prints only the
"no PDF files found" message, processes no file, writes nothing, emits no
summary counts, and raises nothing (informational, not an error). -/
theorem C6_selection_and_empty_stop (envOf : String → ConvEnv) (inF outF : String)
    (entries : List String) (md : List (String × String)) :
    (∀ f, f ∈ entries.filter isPdfName ↔ f ∈ entries ∧ specIsPdfName f = true) ∧
    (entries.filter isPdfName = [] →
      (batch_convert_pdfs envOf inF outF entries md).processed = [] ∧
      (batch_convert_pdfs envOf inF outF entries md).written = [] ∧
      (batch_convert_pdfs envOf inF outF entries md).logs = [LogMsg.noPdfFound] ∧
      (batch_convert_pdfs envOf inF outF entries md).raised = false) := by
  constructor
  · intro f
    simp [List.mem_filter, isPdfName_eq_spec]
  · intro hempty
    have hemp : (entries.filter isPdfName).isEmpty = true := by
      rw [List.isEmpty_iff]
      exact hempty
    simp [batch_convert_pdfs, hemp]

/-- Witness for C6 on a directory with no PDF entries. -/
theorem C6_selection_and_empty_stop_witness :
    (["Notes.TXT"].filter isPdfName = []) ∧
    (batch_convert_pdfs (fun _ => envAllOk 1) "in" "out" ["Notes.TXT"] []).logs =
      [LogMsg.noPdfFound] := by
  have h := C6_selection_and_empty_stop (fun _ => envAllOk 1) "in" "out" ["Notes.TXT"] []
  exact ⟨by decide, (h.2 (by decide)).2.2.1⟩

/-- Claim C8 counterexample: `--author ""` is a supplied flag, but
`if args.author:` is false for the empty string, so no `Author` key is
folded into the metadata mapping — "if and only if supplied" fails. -/
theorem C8_counterexample :
    (Args.mk (some "") none none).author = some "" ∧
    buildMetadata (Args.mk (some "") none none) = [] := ⟨rfl, rfl⟩

/-- Claim C8 (amended): each flag's key is present in the mapping, with the
supplied value, iff the flag was supplied with a non-empty string (Python
truthiness); and every entry of the resulting mapping is embedded into every
output image's metadata in addition to the four fixed fields. -/
theorem C8_flags_folded_iff_truthy (envOf : String → ConvEnv) (inF outF : String)
    (entries : List String) (a : Args) :
    ((buildMetadata a).lookup "Author" =
      (a.author.bind fun s => if s = "" then none else some s)) ∧
    ((buildMetadata a).lookup "Project" =
      (a.project.bind fun s => if s = "" then none else some s)) ∧
    ((buildMetadata a).lookup "Department" =
      (a.department.bind fun s => if s = "" then none else some s)) ∧
    ∀ img ∈ (mainRun envOf inF outF entries a).written,
      ∀ kv ∈ buildMetadata a, kv ∈ img.text := by
  refine ⟨?_, ?_, ?_, ?_⟩
  · rw [buildMetadata, List.append_assoc, lookup_append, lookup_append,
      flagChunk_lookup_self, flagChunk_lookup_other _ _ _ (by decide),
      flagChunk_lookup_other _ _ _ (by decide)]
    cases a.author.bind fun s => if s = "" then none else some s <;> rfl
  · rw [buildMetadata, List.append_assoc, lookup_append, lookup_append,
      flagChunk_lookup_self, flagChunk_lookup_other _ _ _ (by decide),
      flagChunk_lookup_other _ _ _ (by decide)]
    cases a.project.bind fun s => if s = "" then none else some s <;> rfl
  · rw [buildMetadata, List.append_assoc, lookup_append, lookup_append,
      flagChunk_lookup_self, flagChunk_lookup_other _ _ _ (by decide),
      flagChunk_lookup_other _ _ _ (by decide)]
    cases a.department.bind fun s => if s = "" then none else some s <;> rfl
  · intro img himg kv hkv
    obtain ⟨f, hf, hmem⟩ := batch_written_mem envOf inF outF entries (buildMetadata a) img himg
    unfold fileConv at hmem
    obtain ⟨k, i, hopen, hi, himg2⟩ := convert_written_mem (envOf f) (pyJoin inF f)
      (pyJoin outF (pySplitextStem f)) (buildMetadata a) img hmem
    rw [himg2]
    simp only [mkImage, pageMeta, List.mem_append]
    exact Or.inr hkv

/-- Witness for the amended C8 at `--author Alice --project X`. -/
theorem C8_flags_folded_iff_truthy_witness :
    (buildMetadata (Args.mk (some "Alice") (some "X") none)).lookup "Author" = some "Alice" ∧
    (buildMetadata (Args.mk (some "Alice") (some "X") none)).lookup "Project" = some "X" ∧
    (buildMetadata (Args.mk (some "Alice") (some "X") none)).lookup "Department" = none := by
  have h := C8_flags_folded_iff_truthy (fun _ => envAllOk 1) "in" "out" ["a.pdf"]
    (Args.mk (some "Alice") (some "X") none)
  refine ⟨?_, ?_, ?_⟩
  · rw [h.1]; rfl
  · rw [h.2.1]; rfl
  · rw [h.2.2.1]; rfl
